import Mathlib

/-!
Verification development for the edgeproxy repository.

The repository contains convergent variants of one edge reverse proxy:
src/src/worker.js (the edgeproxy-ultimate worker and a second rewriting
worker) and two further workers under src/unnamed.  This file gives a
shallow embedding of the URL proxification algorithm, the rewrite
engines, the header sanitizer, the redirect interceptor, the target
resolver and the KV rate limiter, and proves or refutes the specified
properties about them.

Strings are modelled as lists of characters.  Platform primitives that
the workers call (encodeURIComponent, URLSearchParams decoding, the
WHATWG URL constructor, parseInt, Response.redirect) are modelled from
their platform specifications, restricted to the behavior the workers
rely on; everything else is translated directly from the JavaScript
source.
-/

namespace EdgeProxy

abbrev Str := List Char

/-- Case-sensitive prefix test on character lists, as the JavaScript
String.startsWith method. -/
def startsWithL : Str → Str → Bool
  | _, [] => true
  | [], _ :: _ => false
  | c :: s, p :: ps => c == p && startsWithL s ps

/-- ASCII lowercasing of one character, as JavaScript toLowerCase on
ASCII input. -/
def lowerChar (c : Char) : Char :=
  if 65 ≤ c.toNat ∧ c.toNat ≤ 90 then Char.ofNat (c.toNat + 32) else c

/-- ASCII lowercasing of a string. -/
def lowerStr (s : Str) : Str := s.map lowerChar

/-- Case-insensitive prefix test; the pattern is given in lowercase.
This models a regular expression of the form leading-anchor pattern with
the i flag. -/
def startsWithCI : Str → Str → Bool
  | _, [] => true
  | [], _ :: _ => false
  | c :: s, p :: ps => lowerChar c == p && startsWithCI s ps

/-- Whitespace class of JavaScript regular expressions and String.trim,
restricted to the code points that can occur in the inputs considered
here. -/
def isJsSpace (c : Char) : Bool :=
  c.toNat == 9 || c.toNat == 10 || c.toNat == 11 || c.toNat == 12 ||
  c.toNat == 13 || c.toNat == 32 || c.toNat == 160

/-- Line terminators, which the dot of a JavaScript regular expression
does not match. -/
def isLineTerm (c : Char) : Bool :=
  c.toNat == 10 || c.toNat == 13 || c.toNat == 8232 || c.toNat == 8233

/-- ASCII decimal digit test. -/
def isDigitChar (c : Char) : Bool := 48 ≤ c.toNat && c.toNat ≤ 57

/-- Split a string at the first occurrence of a character: the part
before it, and (when the character occurs) the part after it. -/
def splitAtFirst (t : Char) : Str → Str × Option Str
  | [] => ([], none)
  | c :: rest =>
    if c == t then ([], some rest)
    else
      let r := splitAtFirst t rest
      (c :: r.1, r.2)

def splitOnCharAux (t : Char) : Str → Str → List Str
  | [], acc => [acc.reverse]
  | c :: rest, acc =>
    if c == t then acc.reverse :: splitOnCharAux t rest []
    else splitOnCharAux t rest (c :: acc)

/-- Split a string on every occurrence of a character, as the JavaScript
String.split method with a one-character separator. -/
def splitOnChar (t : Char) (s : Str) : List Str := splitOnCharAux t s []

/-- Substring containment test, as the JavaScript String.includes
method; first argument is the haystack. -/
def includesStr : Str → Str → Bool
  | [], n => n == []
  | c :: rest, n => startsWithL (c :: rest) n || includesStr rest n

/-- Replace the first occurrence of a pattern substring, as the
JavaScript String.replace method with two string arguments. -/
def replaceFirst (pat repl : Str) : Str → Str
  | [] => []
  | c :: rest =>
    if startsWithL (c :: rest) pat then repl ++ (c :: rest).drop pat.length
    else c :: replaceFirst pat repl rest

/-- String.trim of JavaScript: whitespace stripped from both ends. -/
def trimJs (s : Str) : Str :=
  ((s.dropWhile isJsSpace).reverse.dropWhile isJsSpace).reverse

/-! ### Percent encoding (encodeURIComponent and URLSearchParams) -/

/-- Characters left unescaped by encodeURIComponent: ASCII letters,
digits, and - _ . ! ~ * apostrophe ( ). -/
def isUriUnreserved (c : Char) : Bool :=
  (48 ≤ c.toNat && c.toNat ≤ 57) || (65 ≤ c.toNat && c.toNat ≤ 90) ||
  (97 ≤ c.toNat && c.toNat ≤ 122) ||
  c.toNat == 45 || c.toNat == 95 || c.toNat == 46 || c.toNat == 33 ||
  c.toNat == 126 || c.toNat == 42 || c.toNat == 39 || c.toNat == 40 ||
  c.toNat == 41

/-- Uppercase hexadecimal digit for a value below sixteen. -/
def hexDigit (n : Nat) : Char :=
  if n < 10 then Char.ofNat (48 + n) else Char.ofNat (55 + n)

/-- UTF-8 byte sequence of a code point. -/
def utf8Bytes (n : Nat) : List Nat :=
  if n < 128 then [n]
  else if n < 2048 then [192 + n / 64, 128 + n % 64]
  else if n < 65536 then [224 + n / 4096, 128 + (n / 64) % 64, 128 + n % 64]
  else [240 + n / 262144, 128 + (n / 4096) % 64, 128 + (n / 64) % 64, 128 + n % 64]

/-- Percent escape of one byte. -/
def pctEncodeByte (b : Nat) : Str :=
  [Char.ofNat 37, hexDigit (b / 16), hexDigit (b % 16)]

/-- Model of the ECMAScript encodeURIComponent function: unreserved
characters pass through, every other character is UTF-8 encoded and
percent-escaped. -/
def encodeURIComponent : Str → Str
  | [] => []
  | c :: rest =>
    (if isUriUnreserved c then [c] else (utf8Bytes c.toNat).flatMap pctEncodeByte)
      ++ encodeURIComponent rest

/-- Numeric value of a hexadecimal digit character. -/
def hexVal (c : Char) : Option Nat :=
  if 48 ≤ c.toNat ∧ c.toNat ≤ 57 then some (c.toNat - 48)
  else if 65 ≤ c.toNat ∧ c.toNat ≤ 70 then some (c.toNat - 55)
  else if 97 ≤ c.toNat ∧ c.toNat ≤ 102 then some (c.toNat - 87)
  else none

/-- Model of application/x-www-form-urlencoded decoding as used by
URLSearchParams: plus becomes space, valid percent escapes become the
escaped byte, everything else passes through.  (Multi-byte UTF-8
reassembly is elided; the round-trip theorem below is stated for ASCII
payloads, which is what the URL serializer produces.) -/
def formUrlDecode : Str → Str
  | [] => []
  | c :: h1 :: h2 :: rest2 =>
    if c.toNat == 43 then Char.ofNat 32 :: formUrlDecode (h1 :: h2 :: rest2)
    else if c.toNat == 37 then
      match hexVal h1, hexVal h2 with
      | some a, some b => Char.ofNat (16 * a + b) :: formUrlDecode rest2
      | _, _ => c :: formUrlDecode (h1 :: h2 :: rest2)
    else c :: formUrlDecode (h1 :: h2 :: rest2)
  | c :: rest =>
    if c.toNat == 43 then Char.ofNat 32 :: formUrlDecode rest
    else c :: formUrlDecode rest

/-- Characters kept verbatim by the application/x-www-form-urlencoded
serializer used by URLSearchParams.toString: letters, digits, and
* - . _ (space becomes plus). -/
def isFormUnreserved (c : Char) : Bool :=
  (48 ≤ c.toNat && c.toNat ≤ 57) || (65 ≤ c.toNat && c.toNat ≤ 90) ||
  (97 ≤ c.toNat && c.toNat ≤ 122) ||
  c.toNat == 42 || c.toNat == 45 || c.toNat == 46 || c.toNat == 95

/-- Model of the application/x-www-form-urlencoded serializer used by
URLSearchParams.toString. -/
def formUrlEncode : Str → Str
  | [] => []
  | c :: rest =>
    (if c.toNat == 32 then [Char.ofNat 43]
     else if isFormUnreserved c then [c]
     else (utf8Bytes c.toNat).flatMap pctEncodeByte)
      ++ formUrlEncode rest

/-- Model of URLSearchParams.get over a raw query string (no leading
question mark): split on ampersands, split each pair at the first
equals sign, decode key and value, return the first value whose decoded
key matches. -/
def searchParamsGet (name : Str) (query : Str) : Option Str :=
  (splitOnChar (Char.ofNat 38) query).findSome? fun pair =>
    let kv := splitAtFirst (Char.ofNat 61) pair
    if formUrlDecode kv.1 == name then some (formUrlDecode (kv.2.getD [])) else none

/-- Extraction of the url query parameter from a full request URL, as
new URL(request.url).searchParams.get("url") in the worker fetch
handler: drop any fragment, take the part after the first question
mark, and look the parameter up. -/
def getUrlParam (u : Str) : Option Str :=
  match (splitAtFirst (Char.ofNat 63) (splitAtFirst (Char.ofNat 35) u).1).2 with
  | none => none
  | some q => searchParamsGet ("url".toList) q

/-! ### Model of the WHATWG URL constructor

The workers call new URL(raw, base) for resolution and rely on its
failure behavior.  The model below covers the fragment of the WHATWG
URL standard those calls exercise: special (http and similar) URLs with
host, path, query and fragment; non-special URLs kept as an opaque
scheme-and-rest pair; relative resolution of path-, root-, query-,
fragment- and scheme-relative references against a special base; and
failure on a missing or forbidden host and on a reference without a
scheme when no base is given. -/

inductive UrlParts where
  | special (scheme host path : Str) (query : Option Str) (fragment : Option Str)
  | nonSpecial (scheme rest : Str)
deriving DecidableEq

def isAsciiAlpha (c : Char) : Bool :=
  (65 ≤ c.toNat && c.toNat ≤ 90) || (97 ≤ c.toNat && c.toNat ≤ 122)

def isSchemeChar (c : Char) : Bool :=
  isAsciiAlpha c || isDigitChar c || c.toNat == 43 || c.toNat == 45 || c.toNat == 46

def splitSchemeAux : Str → Str → Option (Str × Str)
  | [], _ => none
  | c :: rest, acc =>
    if c.toNat == 58 then some (acc.reverse, rest)
    else if isSchemeChar c then splitSchemeAux rest (c :: acc)
    else none

/-- Split off a leading scheme (one ASCII letter followed by scheme
characters, ended by a colon); none when the input has no scheme. -/
def splitScheme : Str → Option (Str × Str)
  | [] => none
  | c :: rest => if isAsciiAlpha c then splitSchemeAux rest [c] else none

def isSpecialScheme (s : Str) : Bool :=
  s == "http".toList || s == "https".toList || s == "ws".toList ||
  s == "wss".toList || s == "ftp".toList || s == "file".toList

/-- Forbidden host code points of the URL standard (with the colon kept,
standing in for a port separator). -/
def validHostChar (c : Char) : Bool :=
  !(c.toNat == 0 || c.toNat == 9 || c.toNat == 10 || c.toNat == 13 ||
    c.toNat == 32 || c.toNat == 35 || c.toNat == 37 || c.toNat == 47 ||
    c.toNat == 60 || c.toNat == 62 || c.toNat == 63 || c.toNat == 64 ||
    c.toNat == 91 || c.toNat == 92 || c.toNat == 93 || c.toNat == 94 ||
    c.toNat == 124)

/-- Take the authority part (up to the first slash, question mark or
hash) and return it with the remainder. -/
def takeAuthority : Str → Str × Str
  | [] => ([], [])
  | c :: rest =>
    if c.toNat == 47 || c.toNat == 63 || c.toNat == 35 then ([], c :: rest)
    else
      let r := takeAuthority rest
      (c :: r.1, r.2)

/-- Split a path-query-fragment remainder into its three parts. -/
def splitPathQueryFrag (s : Str) : Str × Option Str × Option Str :=
  let pf := splitAtFirst (Char.ofNat 35) s
  let pq := splitAtFirst (Char.ofNat 63) pf.1
  (pq.1, pq.2, pf.2)

def dotSegAux : List Str → List Str → List Str
  | [], out => out.reverse
  | seg :: rest, out =>
    if seg == [Char.ofNat 46] then
      if rest == ([] : List Str) then out.reverse ++ [[]] else dotSegAux rest out
    else if seg == [Char.ofNat 46, Char.ofNat 46] then
      if rest == ([] : List Str) then out.tail.reverse ++ [[]] else dotSegAux rest out.tail
    else dotSegAux rest (seg :: out)

def joinSlash : List Str → Str
  | [] => []
  | [s] => s
  | s :: rest => s ++ Char.ofNat 47 :: joinSlash rest

/-- Path normalization (remove-dot-segments) over a path that starts
with a slash; the empty path stays empty and is rendered as a single
slash by the serializer. -/
def normalizePath (p : Str) : Str :=
  if p == ([] : Str) then []
  else Char.ofNat 47 :: joinSlash (dotSegAux ((splitOnChar (Char.ofNat 47) p).drop 1) [])

/-- Base path up to and including its last slash, for merging a
path-relative reference. -/
def dirOf (p : Str) : Str :=
  (p.reverse.dropWhile (fun c => !(c.toNat == 47))).reverse

def parseAuthorityRest (scheme rest2 : Str) : Option UrlParts :=
  let ar := takeAuthority rest2
  if ar.1 == ([] : Str) || !(ar.1.all validHostChar) then none
  else
    let pqf := splitPathQueryFrag ar.2
    some (.special scheme (lowerStr ar.1) (normalizePath pqf.1) pqf.2.1 pqf.2.2)

/-- Model of the WHATWG URL parser (the fragment described above). -/
def parseUrl (input : Str) (base : Option UrlParts) : Option UrlParts :=
  match splitScheme input with
  | some sr =>
    let scheme := lowerStr sr.1
    if isSpecialScheme scheme then
      if startsWithL sr.2 [Char.ofNat 47, Char.ofNat 47] then
        parseAuthorityRest scheme (sr.2.drop 2)
      else none
    else some (.nonSpecial scheme sr.2)
  | none =>
    match base with
    | none => none
    | some (.nonSpecial _ _) => none
    | some (.special bs bh bp bq _) =>
      match input with
      | [] => some (.special bs bh bp bq none)
      | c :: rest =>
        if c.toNat == 47 then
          if startsWithL (c :: rest) [Char.ofNat 47, Char.ofNat 47] then
            parseAuthorityRest bs ((c :: rest).drop 2)
          else
            let pqf := splitPathQueryFrag (c :: rest)
            some (.special bs bh (normalizePath pqf.1) pqf.2.1 pqf.2.2)
        else if c.toNat == 63 then
          let qf := splitAtFirst (Char.ofNat 35) rest
          some (.special bs bh bp (some qf.1) qf.2)
        else if c.toNat == 35 then
          some (.special bs bh bp bq (some rest))
        else
          let pqf := splitPathQueryFrag (c :: rest)
          some (.special bs bh (normalizePath (dirOf bp ++ pqf.1)) pqf.2.1 pqf.2.2)

/-- Model of the URL serializer (the href and toString accessors). -/
def serializeUrl : UrlParts → Str
  | .special scheme host path query frag =>
    scheme ++ (Char.ofNat 58 :: Char.ofNat 47 :: Char.ofNat 47 :: host)
      ++ (if path == ([] : Str) then [Char.ofNat 47] else path)
      ++ (match query with | some q => Char.ofNat 63 :: q | none => [])
      ++ (match frag with | some f => Char.ofNat 35 :: f | none => [])
  | .nonSpecial scheme rest => scheme ++ Char.ofNat 58 :: rest

/-- Model of new URL(raw, base?).toString(): parse the base when given
(failure there is failure overall), then parse the input against it. -/
def newURL (raw : Str) (base : Option Str) : Option Str :=
  match base with
  | none => (parseUrl raw none).map serializeUrl
  | some b =>
    match parseUrl b none with
    | none => none
    | some pb => (parseUrl raw (some pb)).map serializeUrl

/-! ### URL helpers of src/src/worker.js -/

/-- resolveUrl of worker.js: resolve raw against base with new URL,
returning raw unchanged when raw is empty or resolution throws. -/
def resolveUrl (raw base : Str) : Str :=
  if raw == ([] : Str) then raw
  else
    match newURL raw (some base) with
    | some s => s
    | none => raw

/-- proxify of worker.js: embed the absolute URL as a percent-encoded
url query parameter on the proxy origin. -/
def proxify (proxyOrigin absoluteUrl : Str) : Str :=
  proxyOrigin ++ "?url=".toList ++ encodeURIComponent absoluteUrl

/-- Excluded-scheme test of the regular expression inside
isRewriteableResource of worker.js. -/
def excludedScheme (u : Str) : Bool :=
  startsWithCI u ("data:".toList) || startsWithCI u ("blob:".toList) ||
  startsWithCI u ("about:".toList) || startsWithCI u ("mailto:".toList) ||
  startsWithCI u ("javascript:".toList)

/-- isRewriteableResource of worker.js: false for an empty reference or
one whose scheme is data, blob, about, mailto or javascript. -/
def isRewriteableResource (u : Str) : Bool :=
  if u == ([] : Str) then false else !excludedScheme u

/-! ### Regex replacement machinery

A global regex replacement is modelled by a scanner that tries a
matcher at every position; a matcher returns the length of the match
and its replacement.  Fuel equal to the input length bounds the
recursion (each step consumes at least one character). -/

def replaceAll (step : Str → Option (Nat × Str)) : Nat → Str → Str
  | 0, s => s
  | _, [] => []
  | fuel + 1, c :: rest =>
    match step (c :: rest) with
    | some lr =>
      if lr.1 == 0 then c :: replaceAll step fuel rest
      else lr.2 ++ replaceAll step fuel ((c :: rest).drop lr.1)
    | none => c :: replaceAll step fuel rest

def countSpaces (s : Str) : Nat := (s.takeWhile isJsSpace).length

/-- Whitespace-then-closing-paren test: the number of characters
consumed when the string continues with optional whitespace followed by
a closing parenthesis. -/
def takeSpacesClose (s : Str) : Option Nat :=
  let n := countSpaces s
  match s.drop n with
  | c :: _ => if c.toNat == 41 then some (n + 1) else none
  | [] => none

/-- Lazy scan of the unquoted CSS url( content: the shortest prefix
(not crossing a line terminator, as the regex dot) that is followed by
optional whitespace and a closing parenthesis; returns the content and
the number of characters consumed after it. -/
def scanUnquoted : Str → Option (Str × Nat)
  | [] => none
  | c :: rest =>
    match takeSpacesClose (c :: rest) with
    | some k => some ([], k)
    | none =>
      if isLineTerm c then none
      else
        match scanUnquoted rest with
        | some ur => some (c :: ur.1, ur.2)
        | none => none

/-- Lazy scan of the quoted CSS url( content: the shortest prefix
followed by the matching quote, optional whitespace and a closing
parenthesis. -/
def scanQuoted (q : Char) : Str → Option (Str × Nat)
  | [] => none
  | c :: rest =>
    if c == q then
      match takeSpacesClose rest with
      | some k => some ([], 1 + k)
      | none =>
        if isLineTerm c then none
        else
          match scanQuoted q rest with
          | some ur => some (c :: ur.1, ur.2)
          | none => none
    else if isLineTerm c then none
    else
      match scanQuoted q rest with
      | some ur => some (c :: ur.1, ur.2)
      | none => none

/-! ### CSS rewrite engine of src/src/worker.js -/

/-- Replacement function of the url( pass of rewriteCSS (worker.js
lines 108 to 112): an excluded reference is re-emitted verbatim inside
its url( wrapper, everything else is resolved and proxified. -/
def cssUrlReplace (proxyOrigin base : Str) (quote u : Str) : Str :=
  if !isRewriteableResource u then
    "url(".toList ++ quote ++ u ++ quote ++ [Char.ofNat 41]
  else
    "url(".toList ++ quote ++ proxify proxyOrigin (resolveUrl u base) ++ quote ++ [Char.ofNat 41]

/-- Matcher for the url( regex of rewriteCSS: url( case-insensitively,
optional whitespace, an optionally quoted lazily captured content, the
matching quote, optional whitespace, closing parenthesis. -/
def cssUrlStep (proxyOrigin base : Str) (s : Str) : Option (Nat × Str) :=
  if startsWithCI s ("url(".toList) then
    let rest := s.drop 4
    let ns := countSpaces rest
    match rest.drop ns with
    | c :: t2 =>
      if c.toNat == 39 || c.toNat == 34 then
        match scanQuoted c t2 with
        | some ur => some (4 + ns + 1 + ur.1.length + ur.2, cssUrlReplace proxyOrigin base [c] ur.1)
        | none =>
          match scanUnquoted (c :: t2) with
          | some ur => some (4 + ns + ur.1.length + ur.2, cssUrlReplace proxyOrigin base [] ur.1)
          | none => none
      else
        match scanUnquoted (c :: t2) with
        | some ur => some (4 + ns + ur.1.length + ur.2, cssUrlReplace proxyOrigin base [] ur.1)
        | none => none
    | [] => none
  else none

/-- Replacement function of the at-import pass of rewriteCSS (worker.js
lines 115 to 119): an excluded reference leaves the whole match m
untouched, everything else becomes an at-import of the proxified URL. -/
def cssImportReplace (proxyOrigin base : Str) (m u : Str) : Str :=
  if !isRewriteableResource u then m
  else "@import url(\"".toList ++ proxify proxyOrigin (resolveUrl u base) ++ "\")".toList

/-- Character class of the at-import capture: everything except quotes,
closing parenthesis and whitespace. -/
def importUrlChar (c : Char) : Bool :=
  !(c.toNat == 39 || c.toNat == 34 || c.toNat == 41 || isJsSpace c)

def isCssQuote (c : Char) : Bool := c.toNat == 39 || c.toNat == 34

/-- Matcher for the at-import regex of rewriteCSS: at-import, required
whitespace, optional url( wrapper, optional quote, a nonempty capture,
optional quote, optional closing parenthesis. -/
def cssImportStep (proxyOrigin base : Str) (s : Str) : Option (Nat × Str) :=
  if startsWithCI s ("@import".toList) then
    let rest := s.drop 7
    let ns := countSpaces rest
    if ns == 0 then none
    else
      let t := rest.drop ns
      let nu := if startsWithCI t ("url(".toList) then 4 else 0
      let t2 := t.drop nu
      let nq1 := match t2 with
        | c :: _ => if isCssQuote c then 1 else 0
        | [] => 0
      let t3 := t2.drop nq1
      let u := t3.takeWhile importUrlChar
      if u == ([] : Str) then none
      else
        let t4 := t3.drop u.length
        let nq2 := match t4 with
          | c :: _ => if isCssQuote c then 1 else 0
          | [] => 0
        let t5 := t4.drop nq2
        let np := match t5 with
          | c :: _ => if c.toNat == 41 then 1 else 0
          | [] => 0
        let len := 7 + ns + nu + nq1 + u.length + nq2 + np
        some (len, cssImportReplace proxyOrigin base (s.take len) u)
  else none

/-- rewriteCSS of worker.js: the url( pass followed by the at-import
pass over the fully buffered text; no size ceiling is applied. -/
def rewriteCSS (cssText base proxyOrigin : Str) : Str :=
  if cssText == ([] : Str) then cssText
  else
    let p1 := replaceAll (cssUrlStep proxyOrigin base) cssText.length cssText
    replaceAll (cssImportStep proxyOrigin base) p1.length p1

/-! ### JS rewrite engine of src/src/worker.js -/

/-- proxifyIf of rewriteJS (worker.js lines 131 to 137): leave excluded
references and references already starting with the proxy origin
unchanged, otherwise resolve and proxify. -/
def proxifyIf (proxyOrigin base u : Str) : Str :=
  if !isRewriteableResource u then u
  else if startsWithL u proxyOrigin then u
  else proxify proxyOrigin (resolveUrl u base)

def isJsQuote (c : Char) : Bool := c.toNat == 34 || c.toNat == 39 || c.toNat == 96

/-- Length matched by the URL-shape alternation https-or-http-or-slash
(case-insensitive) at the head of a string. -/
def jsUrlStartLen (s : Str) : Option Nat :=
  if startsWithCI s ("https://".toList) then some 8
  else if startsWithCI s ("http://".toList) then some 7
  else if startsWithL s [Char.ofNat 47] then some 1
  else none

/-- Scan up to the first quote character (any of the three JavaScript
quotes): the content before it, the quote, and the remainder. -/
def scanToQuote : Str → Option (Str × Char × Str)
  | [] => none
  | c :: rest =>
    if isJsQuote c then some ([], c, rest)
    else
      match scanToQuote rest with
      | some ur => some (c :: ur.1, ur.2.1, ur.2.2)
      | none => none

/-- Match a quoted URL-shaped string literal: an opening quote, a
capture that starts like a URL and has at least one further character,
and the same closing quote.  Returns the quote, the capture and the
remainder after the closing quote. -/
def quotedUrlLit (s : Str) : Option (Char × Str × Str) :=
  match s with
  | q :: rest =>
    if isJsQuote q then
      match scanToQuote rest with
      | some ur =>
        if ur.2.1 == q then
          match jsUrlStartLen ur.1 with
          | some plen => if plen < ur.1.length then some (q, ur.1, ur.2.2) else none
          | none => none
        else none
      | none => none
    else none
  | [] => none

/-- Matcher of the fetch( pass of rewriteJS. -/
def jsFetchStep (proxyOrigin base : Str) (s : Str) : Option (Nat × Str) :=
  if startsWithCI s ("fetch(".toList) then
    let rest := s.drop 6
    let ns := countSpaces rest
    match quotedUrlLit (rest.drop ns) with
    | some r =>
      some (6 + ns + 1 + r.2.1.length + 1,
        "fetch(".toList ++ [r.1] ++ proxifyIf proxyOrigin base r.2.1 ++ [r.1])
    | none => none
  else none

/-- Matcher of the dynamic import( pass of rewriteJS. -/
def jsImportStep (proxyOrigin base : Str) (s : Str) : Option (Nat × Str) :=
  if startsWithCI s ("import(".toList) then
    let rest := s.drop 7
    let ns := countSpaces rest
    match quotedUrlLit (rest.drop ns) with
    | some r =>
      let after := r.2.2
      let ns2 := countSpaces after
      match after.drop ns2 with
      | c :: _ =>
        if c.toNat == 41 then
          some (7 + ns + 1 + r.2.1.length + 1 + ns2 + 1,
            "import(".toList ++ [r.1] ++ proxifyIf proxyOrigin base r.2.1 ++ [r.1, Char.ofNat 41])
        else none
      | [] => none
    | none => none
  else none

/-- Full-string quoted-literal test used on each importScripts argument
(the anchored quote-content-quote regex with the dot of the middle not
crossing line terminators). -/
def fullQuoted (p : Str) : Option (Char × Str) :=
  match p with
  | c :: rest =>
    if isJsQuote c ∧ rest ≠ [] then
      let mid := rest.dropLast
      match rest.getLast? with
      | some d => if d == c ∧ mid.all (fun x => !isLineTerm x) then some (c, mid) else none
      | none => none
    else none
  | [] => none

/-- Per-argument rewrite of the importScripts pass. -/
def importScriptsArg (proxyOrigin base : Str) (p : Str) : Str :=
  match fullQuoted p with
  | some qm => [qm.1] ++ proxifyIf proxyOrigin base qm.2 ++ [qm.1]
  | none => p

def joinComma : List Str → Str
  | [] => []
  | [s] => s
  | s :: rest => s ++ Char.ofNat 44 :: joinComma rest

/-- Matcher of the importScripts pass of rewriteJS: the argument text
up to the first closing parenthesis is split on commas, each trimmed
nonempty argument that is a full quoted literal is proxified. -/
def jsImportScriptsStep (proxyOrigin base : Str) (s : Str) : Option (Nat × Str) :=
  if startsWithCI s ("importscripts(".toList) then
    let rest := s.drop 14
    let ns := countSpaces rest
    let t := rest.drop ns
    let args := t.takeWhile (fun c => !(c.toNat == 41))
    if args == ([] : Str) then none
    else if args.length < t.length then
      let parts := ((splitOnChar (Char.ofNat 44) args).map trimJs).filter (fun p => p ≠ [])
      some (14 + ns + args.length + 1,
        "importScripts(".toList ++ joinComma (parts.map (importScriptsArg proxyOrigin base)) ++ [Char.ofNat 41])
    else none
  else none

def jsMethodNames : List Str :=
  ["get".toList, "post".toList, "put".toList, "delete".toList, "options".toList, "head".toList]

def matchMethodLen (s : Str) : Option Nat :=
  (jsMethodNames.find? (fun m => startsWithCI s m)).map (·.length)

/-- Matcher of the XMLHttpRequest open pass of rewriteJS: the whole
match is captured and its URL literal is replaced by its proxified
form via a first-occurrence string replacement. -/
def jsOpenStep (proxyOrigin base : Str) (s : Str) : Option (Nat × Str) :=
  if startsWithCI s (".open".toList) then
    let r1 := s.drop 5
    let ns1 := countSpaces r1
    match r1.drop ns1 with
    | c1 :: r2 =>
      if c1.toNat == 40 then
        let ns2 := countSpaces r2
        let t := r2.drop ns2
        match t with
        | q1 :: t2 =>
          if isJsQuote q1 then
            match matchMethodLen t2 with
            | some ml =>
              match t2.drop ml with
              | q1b :: t3 =>
                if q1b == q1 then
                  let ns3 := countSpaces t3
                  match t3.drop ns3 with
                  | cm :: t4 =>
                    if cm.toNat == 44 then
                      let ns4 := countSpaces t4
                      match quotedUrlLit (t4.drop ns4) with
                      | some r =>
                        let len := 5 + ns1 + 1 + ns2 + 1 + ml + 1 + ns3 + 1 + ns4 + 1 + r.2.1.length + 1
                        some (len, replaceFirst r.2.1 (proxifyIf proxyOrigin base r.2.1) (s.take len))
                      | none => none
                    else none
                  | [] => none
                else none
              | [] => none
            | none => none
          else none
        | [] => none
      else none
    | [] => none
  else none

/-- Matcher of the Worker and SharedWorker construction pass of
rewriteJS; the replacement is a first-occurrence string replacement on
the whole match. -/
def jsWorkerStep (proxyOrigin base : Str) (s : Str) : Option (Nat × Str) :=
  if startsWithCI s ("new".toList) then
    let r1 := s.drop 3
    let ns := countSpaces r1
    if ns == 0 then none
    else
      let t := r1.drop ns
      let wl := if startsWithCI t ("worker(".toList) then some 7
                else if startsWithCI t ("sharedworker(".toList) then some 13
                else none
      match wl with
      | some w =>
        let r2 := t.drop w
        let ns2 := countSpaces r2
        match quotedUrlLit (r2.drop ns2) with
        | some r =>
          let len := 3 + ns + w + ns2 + 1 + r.2.1.length + 1
          some (len, replaceFirst r.2.1 (proxifyIf proxyOrigin base r.2.1) (s.take len))
        | none => none
      | none => none
  else none

/-- Matcher of the location assignment pass of rewriteJS: the left-hand
side (location, optionally with href or assign, through the equals
sign) is captured and kept, the URL literal is proxified. -/
def jsLocationStep (proxyOrigin base : Str) (s : Str) : Option (Nat × Str) :=
  if startsWithCI s ("location".toList) then
    let r1 := s.drop 8
    let suf := if startsWithCI r1 (".href".toList) then 5
               else if startsWithCI r1 (".assign".toList) then 7
               else 0
    let r2 := r1.drop suf
    let ns1 := countSpaces r2
    match r2.drop ns1 with
    | ce :: r3 =>
      if ce.toNat == 61 then
        let ns2 := countSpaces r3
        match quotedUrlLit (r3.drop ns2) with
        | some r =>
          let lhsLen := 8 + suf + ns1 + 1 + ns2
          some (lhsLen + 1 + r.2.1.length + 1,
            s.take lhsLen ++ [r.1] ++ proxifyIf proxyOrigin base r.2.1 ++ [r.1])
        | none => none
      else none
    | [] => none
  else none

/-- Matcher of the service worker registration pass of rewriteJS. -/
def jsSwStep (proxyOrigin base : Str) (s : Str) : Option (Nat × Str) :=
  let fl := if startsWithCI s ("registerserviceworker".toList) then some 21
            else if startsWithCI s ("serviceworker.register".toList) then some 22
            else none
  match fl with
  | some f =>
    match s.drop f with
    | cp :: r1 =>
      if cp.toNat == 40 then
        let ns := countSpaces r1
        match quotedUrlLit (r1.drop ns) with
        | some r =>
          let after := r.2.2
          let ns2 := countSpaces after
          match after.drop ns2 with
          | cc :: _ =>
            if cc.toNat == 41 then
              some (f + 1 + ns + 1 + r.2.1.length + 1 + ns2 + 1,
                s.take f ++ [Char.ofNat 40, r.1] ++ proxifyIf proxyOrigin base r.2.1
                  ++ [r.1, Char.ofNat 41])
            else none
          | [] => none
        | none => none
      else none
    | [] => none
  | none => none

/-- Matcher of the sourceMappingURL comment pass of rewriteJS: the rest
of the line is the URL; excluded references leave the whole match
untouched. -/
def jsSourceMapStep (proxyOrigin base : Str) (s : Str) : Option (Nat × Str) :=
  if startsWithCI s ("//# sourcemappingurl=".toList) then
    let url := (s.drop 21).takeWhile (fun c => !isLineTerm c)
    let len := 21 + url.length
    if !isRewriteableResource url then some (len, s.take len)
    else some (len, s.take 21 ++ proxifyIf proxyOrigin base url)
  else none

/-- Replacement of the final generic sweep of rewriteJS (worker.js
lines 199 to 205): a literal already starting with the proxy origin or
containing whitespace or angle brackets is left as matched. -/
def jsGenericReplace (proxyOrigin base : Str) (q : Char) (u : Str) : Str :=
  if startsWithL u proxyOrigin then [q] ++ u ++ [q]
  else if u.any (fun c => c.toNat == 60 || c.toNat == 62 || isJsSpace c) then [q] ++ u ++ [q]
  else [q] ++ proxifyIf proxyOrigin base u ++ [q]

/-- Matcher of the generic quoted-URL sweep of rewriteJS. -/
def jsGenericStep (proxyOrigin base : Str) (s : Str) : Option (Nat × Str) :=
  match quotedUrlLit s with
  | some r => some (1 + r.2.1.length + 1, jsGenericReplace proxyOrigin base r.1 r.2.1)
  | none => none

/-- rewriteJS of worker.js: empty or oversized text passes through
unchanged, otherwise the nine ordered heuristic passes run over the
fully buffered text. -/
def rewriteJS (jsText base proxyOrigin : Str) (maxBytes : Nat) : Str :=
  if jsText == ([] : Str) then jsText
  else if maxBytes < jsText.length then jsText
  else
    let run := fun (step : Str → Str → Str → Option (Nat × Str)) (t : Str) =>
      replaceAll (step proxyOrigin base) t.length t
    let t1 := run jsFetchStep jsText
    let t2 := run jsImportStep t1
    let t3 := run jsImportScriptsStep t2
    let t4 := run jsOpenStep t3
    let t5 := run jsWorkerStep t4
    let t6 := run jsLocationStep t5
    let t7 := run jsSwStep t6
    let t8 := run jsSourceMapStep t7
    run jsGenericStep t8

/-! ### JSON rewrite engine of src/src/worker.js

JSON.parse and JSON.stringify are platform primitives; the engine is
modelled on the parsed tree, whose traversal and string-leaf
replacement are translated from rewriteJSON (worker.js lines 211 to
240). -/

inductive Json where
  | str (s : Str)
  | num (n : Int)
  | bool (b : Bool)
  | null
  | arr (xs : List Json)
  | obj (fields : List (Str × Json))

/-- URL-shape test of rewriteJSON: absolute http or https, or
root-relative. -/
def jsonUrlShape (s : Str) : Bool := (jsUrlStartLen s).isSome

/-- String-leaf replacement of rewriteJSON: a URL-shaped rewriteable
string is resolved and proxified, everything else is unchanged. -/
def jsonStringRewrite (base proxyOrigin s : Str) : Str :=
  if jsonUrlShape s && isRewriteableResource s then proxify proxyOrigin (resolveUrl s base)
  else s

mutual
/-- Recursive replacer of rewriteJSON over the parsed tree. -/
def jsonReplace (base proxyOrigin : Str) : Json → Json
  | .arr xs => .arr (jsonReplaceList base proxyOrigin xs)
  | .obj fs => .obj (jsonReplaceFields base proxyOrigin fs)
  | .str s => .str (jsonStringRewrite base proxyOrigin s)
  | .num n => .num n
  | .bool b => .bool b
  | .null => .null

def jsonReplaceList (base proxyOrigin : Str) : List Json → List Json
  | [] => []
  | x :: xs => jsonReplace base proxyOrigin x :: jsonReplaceList base proxyOrigin xs

def jsonReplaceFields (base proxyOrigin : Str) : List (Str × Json) → List (Str × Json)
  | [] => []
  | (k, v) :: fs => (k, jsonReplace base proxyOrigin v) :: jsonReplaceFields base proxyOrigin fs
end

/-! ### HTML handler value functions of src/src/worker.js -/

/-- attrProxy of createHtmlRewriterHandlers (worker.js lines 245 to
251), as the transformation applied to one attribute value: empty and
excluded values are untouched, everything else is resolved and
proxified with no already-proxified check. -/
def attrProxy (proxyOrigin targetBase val : Str) : Str :=
  if val == ([] : Str) then val
  else if !isRewriteableResource val then val
  else proxify proxyOrigin (resolveUrl val targetBase)

/-- The anchor handler (worker.js lines 255 to 262): only an empty href
or one starting with the javascript scheme is skipped; everything else,
including other excluded schemes, is resolved and proxified. -/
def anchorHref (proxyOrigin targetBase href : Str) : Str :=
  if href == ([] : Str) || startsWithL href ("javascript:".toList) then href
  else proxify proxyOrigin (resolveUrl href targetBase)

/-! ### Headers

Headers are modelled as association lists with case-insensitive names,
as the Fetch Headers class. -/

abbrev Headers := List (Str × Str)

def hGet (hs : Headers) (name : Str) : Option Str :=
  (hs.find? (fun kv => lowerStr kv.1 == lowerStr name)).map (·.2)

def hDelete (hs : Headers) (name : Str) : Headers :=
  hs.filter (fun kv => !(lowerStr kv.1 == lowerStr name))

def hSet (hs : Headers) (name v : Str) : Headers :=
  hDelete hs name ++ [(name, v)]

/-! ### src/unnamed/part_000 (the edge-rewriter worker) -/

/-- proxify of part_000 (lines 157 to 166): resolve against the base
with new URL; on success return a query-only reference carrying the
absolute URL form-urlencoded under the parameter u, on failure return
the input unchanged. -/
def part000Proxify (absOrRel baseUrl : Str) : Str :=
  match newURL absOrRel (some baseUrl) with
  | some absolute => Char.ofNat 63 :: ("u=".toList ++ formUrlEncode absolute)
  | none => absOrRel

/-- Excluded-scheme test of the AttrRewriter class of part_000 (line
178): data, mailto, javascript, tel and blob - but not about. -/
def part000Skips (v : Str) : Bool :=
  startsWithCI v ("data:".toList) || startsWithCI v ("mailto:".toList) ||
  startsWithCI v ("javascript:".toList) || startsWithCI v ("tel:".toList) ||
  startsWithCI v ("blob:".toList)

/-- AttrRewriter.element of part_000, as the transformation applied to
one attribute value. -/
def part000AttrRewrite (baseUrl val : Str) : Str :=
  if val == ([] : Str) then val
  else if part000Skips val then val
  else part000Proxify val baseUrl

/-- sanitizeHeaders of part_000 (lines 141 to 154): strip the five
framing headers and set-cookie, then set nosniff. -/
def sanitizeHeaders (headers : Headers) : Headers :=
  let stripped :=
    ["content-encoding".toList, "content-length".toList, "transfer-encoding".toList,
     "connection".toList, "alt-svc".toList].foldl hDelete headers
  hSet (hDelete stripped ("set-cookie".toList)) ("x-content-type-options".toList) ("nosniff".toList)

/-- Headers of the response part_000 returns, as a function of the
upstream content type and headers (fetch handler lines 34 to 67): the
sanitized copy is used by the CSS and passthrough branches, but the
HTML branch returns rewriter.transform(upstreamResp), whose headers are
the unsanitized upstream headers - the sanitized copy (including the
content-type update made on it) is discarded. -/
def part000ResponseHeaders (contentType : Str) (upstream : Headers) : Headers :=
  let headers := sanitizeHeaders upstream
  if includesStr contentType ("text/html".toList) then upstream
  else if includesStr contentType ("text/css".toList) then
    hSet headers ("content-type".toList) ("text/css; charset=utf-8".toList)
  else headers

/-- Target resolution of part_000 (fetch handler lines 20 to 26): parse
the raw target; on failure retry with the https scheme prefixed; a
second failure throws, which the surrounding try of the handler turns
into an error response before any upstream fetch. -/
def part000ResolveTarget (targetRaw : Str) : Except Unit Str :=
  match newURL targetRaw none with
  | some u => .ok u
  | none =>
    match newURL ("https://".toList ++ targetRaw) none with
    | some u => .ok u
    | none => .error ()

/-! ### Target validation of src/src/worker.js -/

inductive TargetOutcome where
  | missing
  | invalid
  | ok (target : Str)
deriving DecidableEq

/-- Target validation of the worker.js fetch handler (lines 427 to
438): a missing url (or target) parameter and an unparsable target are
each rejected with a 400 response before any upstream call; there is no
https defaulting. -/
def workerResolveTarget (targetParam : Option Str) : TargetOutcome :=
  match targetParam with
  | none => .missing
  | some t =>
    match newURL t none with
    | some u => .ok u
    | none => .invalid

/-! ### Response header preparation and redirect interception of
src/src/worker.js -/

/-- outHeaders preparation of the worker.js fetch handler (lines 504 to
512): delete the three rendering-blocking headers, add the two CORS
headers and the two proxy tags.  No framing headers are removed and no
nosniff header is added here. -/
def workerOutHeaders (targetHostname : Str) (upstream : Headers) : Headers :=
  let h := ["content-security-policy".toList, "x-frame-options".toList,
            "x-xss-protection".toList].foldl hDelete upstream
  let h := hSet h ("Access-Control-Allow-Origin".toList) [Char.ofNat 42]
  let h := hSet h ("Access-Control-Allow-Headers".toList) ("Content-Type, x-api-key".toList)
  let h := hSet h ("x-proxy-origin-host".toList) targetHostname
  hSet h ("x-proxy-rewritten".toList) ("none".toList)

inductive RedirectOutcome where
  | redirect (location : Str) (status : Nat)
  | thrown
  | fallthrough
deriving DecidableEq

/-- Redirect statuses accepted by Response.redirect per the Fetch
standard; any other status makes Response.redirect throw a RangeError. -/
def isRedirectStatus (s : Nat) : Bool :=
  s == 301 || s == 302 || s == 303 || s == 307 || s == 308

/-- Redirect interception of the worker.js fetch handler (lines 495 to
502) combined with the Fetch-standard behavior of Response.redirect: a
3xx upstream status with a Location header is resolved against the
target, proxified and re-issued with the upstream status when that
status is a valid redirect status; Response.redirect throws (uncaught)
on the other 3xx statuses; without a Location header processing falls
through to the normal pipeline. -/
def redirectIntercept (proxyOrigin targetUrl : Str) (status : Nat)
    (location : Option Str) : RedirectOutcome :=
  if 300 ≤ status ∧ status < 400 then
    match location with
    | some loc =>
      if isRedirectStatus status then
        .redirect (proxify proxyOrigin (resolveUrl loc targetUrl)) status
      else .thrown
    | none => .fallthrough
  else .fallthrough

/-! ### Size ceiling of src/src/worker.js -/

/-- Model of the JavaScript parseInt function with no radix argument:
skip whitespace, optional sign, optional hexadecimal prefix, then the
longest digit prefix; none models NaN. -/
def parseIntJS (s : Str) : Option Int :=
  let t := s.dropWhile isJsSpace
  let st : Bool × Str :=
    match t with
    | c :: r =>
      if c.toNat == 45 then (true, r)
      else if c.toNat == 43 then (false, r) else (false, t)
    | [] => (false, t)
  if startsWithCI st.2 ("0x".toList) then
    let ds := (st.2.drop 2).takeWhile (fun c => (hexVal c).isSome)
    if ds == ([] : Str) then none
    else
      let v : Int := ds.foldl (fun a c => 16 * a + ((hexVal c).getD 0 : Nat)) 0
      some (if st.1 then -v else v)
  else
    let ds := st.2.takeWhile isDigitChar
    if ds == ([] : Str) then none
    else
      let v : Int := ds.foldl (fun a c => 10 * a + ((c.toNat : Int) - 48)) 0
      some (if st.1 then -v else v)

/-- isTooLarge of worker.js (lines 95 to 101): true when a parsable
content-length header exceeds the ceiling. -/
def isTooLarge (headers : Headers) (maxBytes : Nat) : Bool :=
  match hGet headers ("content-length".toList) with
  | none => false
  | some cl =>
    match parseIntJS cl with
    | none => false
    | some n => (maxBytes : Int) < n

/-- Body of the response returned by the JS branch of the worker.js
fetch handler (lines 571 to 599): with an oversized content-length the
upstream body is passed through raw, otherwise the text runs through
rewriteJS (whose own length guard also applies). -/
def jsBranchBody (outHeaders : Headers) (bodyText base proxyOrigin : Str)
    (maxBytes : Nat) : Str :=
  if isTooLarge outHeaders maxBytes then bodyText
  else rewriteJS bodyText base proxyOrigin maxBytes

/-- Body of the response returned by the CSS branch of the worker.js
fetch handler (lines 549 to 567): rewriteCSS is applied
unconditionally; the maxBytes value read from the environment on line
555 is never used in this branch. -/
def cssBranchBody (bodyText base proxyOrigin : Str) (maxBytes : Nat) : Str :=
  rewriteCSS bodyText base proxyOrigin

/-! ### KV rate limiter of src/src/worker.js -/

/-- Decimal digit characters of a natural number, as the default
number-to-string conversion of JavaScript on integral values. -/
def natDecimal : Nat → Str
  | n =>
    if h : n < 10 then [Char.ofNat (48 + n)]
    else natDecimal (n / 10) ++ [Char.ofNat (48 + n % 10)]
termination_by n => n
decreasing_by exact Nat.div_lt_self (by omega) (by omega)

/-- JavaScript String conversion of an integral number. -/
def jsIntToString (i : Int) : Str :=
  if i < 0 then Char.ofNat 45 :: natDecimal (-i).toNat else natDecimal i.toNat

abbrev KVStore := List (Str × Str)

def kvGet (kv : KVStore) (k : Str) : Option Str :=
  (kv.find? (fun e => e.1 == k)).map (·.2)

def kvPut (kv : KVStore) (k v : Str) : KVStore :=
  kv.filter (fun e => !(e.1 == k)) ++ [(k, v)]

/-- KV key of checkRateLimit: rl colon apiKey colon minute. -/
def rlKey (apiKey : Str) (minute : Nat) : Str :=
  "rl:".toList ++ apiKey ++ Char.ofNat 58 :: natDecimal minute

/-- checkRateLimit of worker.js (lines 59 to 71), with the KV namespace
configured: read the per-minute counter (zero when absent; a stored
value that fails to parse, which this code never writes, is modelled as
zero), reject at or above the limit without writing, otherwise store
the incremented counter and admit.  The write expiry is owned by the
store and not modelled. -/
def checkRateLimit (kv : KVStore) (apiKey : Str) (minute limit : Nat) : Bool × KVStore :=
  let key := rlKey apiKey minute
  let cur : Int :=
    match kvGet kv key with
    | none => 0
    | some raw => (parseIntJS raw).getD 0
  if (limit : Int) ≤ cur then (false, kv)
  else (true, kvPut kv key (jsIntToString (cur + 1)))

/-- The rate limit gate of the worker.js fetch handler (lines 406 to
409): a rejected check returns a 429 response at once, before the
outbound request to the upstream target is ever built. -/
inductive GateOutcome where
  | rejected429
  | contactUpstream
deriving DecidableEq

def rateLimitGate (rlOk : Bool) : GateOutcome :=
  if rlOk then .contactUpstream else .rejected429

/-- One request per list element at the given minute: the final store
and the per-request admission flags. -/
def runRequests (kv : KVStore) (apiKey : Str) (limit : Nat) : List Nat → KVStore × List Bool
  | [] => (kv, [])
  | m :: ms =>
    let r := checkRateLimit kv apiKey m limit
    let rec2 := runRequests r.2 apiKey limit ms
    (rec2.1, r.1 :: rec2.2)

/-! ## Claim C2: excluded schemes -/

/-- C2 (counterexample): the exclusion list is not respected
everywhere.  The tel scheme is missing from isRewriteableResource of
worker.js, so the CSS engine rewrites a tel reference; the anchor
handler of worker.js skips only the javascript scheme and rewrites a
mailto link; and the AttrRewriter of part_000 does not skip the about
scheme. -/
theorem tel_mailto_about_rewritten_counterexample :
    rewriteCSS ("url(tel:+15551234567)".toList) ("https://ex.com/".toList)
        ("https://proxy.test".toList) ≠ ("url(tel:+15551234567)".toList) ∧
    anchorHref ("https://proxy.test".toList) ("https://ex.com/".toList)
        ("mailto:alice@example.com".toList) ≠ ("mailto:alice@example.com".toList) ∧
    part000AttrRewrite ("https://ex.com/".toList) ("about:blank".toList)
      ≠ ("about:blank".toList) :=
  ⟨by decide, by decide, by decide⟩

/-- C2 (amended): a reference whose scheme is data, blob, about,
mailto or javascript (the exclusion list of isRewriteableResource in
worker.js; tel is not on it) is not rewriteable, and every handler
guarded by isRewriteableResource leaves it unchanged: proxifyIf of the
JS engine, the replacement functions of both CSS passes, the JSON
string replacer and attrProxy of the HTML handlers. -/
theorem excluded_scheme_handlers_preserve (o b q m r : Str)
    (h : excludedScheme r = true) :
    isRewriteableResource r = false ∧
    proxifyIf o b r = r ∧
    cssUrlReplace o b q r = "url(".toList ++ q ++ r ++ q ++ [Char.ofNat 41] ∧
    cssImportReplace o b m r = m ∧
    jsonStringRewrite b o r = r ∧
    attrProxy o b r = r := by
  have hne : r ≠ [] := by
    intro he
    rw [he] at h
    exact absurd h (by decide)
  have hR : isRewriteableResource r = false := by
    cases r with
    | nil => exact absurd rfl hne
    | cons c rest => simp [isRewriteableResource, h]
  refine ⟨hR, ?_, ?_, ?_, ?_, ?_⟩
  · simp [proxifyIf, hR]
  · simp [cssUrlReplace, hR]
  · simp [cssImportReplace, hR]
  · simp [jsonStringRewrite, hR]
  · cases r with
    | nil => exact absurd rfl hne
    | cons c rest => simp [attrProxy, hR]

/-- C2 (witness): the amended theorem instantiated at a data URL. -/
theorem excluded_scheme_handlers_preserve_witness :
    isRewriteableResource ("data:image/png;base64,AAA".toList) = false ∧
    proxifyIf ("https://proxy.test".toList) ("https://ex.com/".toList)
        ("data:image/png;base64,AAA".toList) = ("data:image/png;base64,AAA".toList) ∧
    cssUrlReplace ("https://proxy.test".toList) ("https://ex.com/".toList) []
        ("data:image/png;base64,AAA".toList)
      = "url(".toList ++ [] ++ ("data:image/png;base64,AAA".toList) ++ [] ++ [Char.ofNat 41] ∧
    cssImportReplace ("https://proxy.test".toList) ("https://ex.com/".toList)
        ("@import data:x".toList) ("data:image/png;base64,AAA".toList) = ("@import data:x".toList) ∧
    jsonStringRewrite ("https://ex.com/".toList) ("https://proxy.test".toList)
        ("data:image/png;base64,AAA".toList) = ("data:image/png;base64,AAA".toList) ∧
    attrProxy ("https://proxy.test".toList) ("https://ex.com/".toList)
        ("data:image/png;base64,AAA".toList) = ("data:image/png;base64,AAA".toList) :=
  excluded_scheme_handlers_preserve ("https://proxy.test".toList) ("https://ex.com/".toList)
    [] ("@import data:x".toList) ("data:image/png;base64,AAA".toList) (by decide)

/-! ## Claim C3: idempotence on already-proxified references -/

/-- C3 (counterexample): an already-proxified reference (one starting
with the proxy origin) is wrapped again by the HTML attribute handler
and by the JSON engine of worker.js, which have no origin-prefix
check. -/
theorem already_proxified_rewrapped_counterexample :
    startsWithL ("https://proxy.test/?url=https%3A%2F%2Fex.com%2F".toList)
        ("https://proxy.test".toList) = true ∧
    attrProxy ("https://proxy.test".toList) ("https://ex.com/".toList)
        ("https://proxy.test/?url=https%3A%2F%2Fex.com%2F".toList)
      ≠ ("https://proxy.test/?url=https%3A%2F%2Fex.com%2F".toList) ∧
    jsonStringRewrite ("https://ex.com/".toList) ("https://proxy.test".toList)
        ("https://proxy.test/?url=https%3A%2F%2Fex.com%2F".toList)
      ≠ ("https://proxy.test/?url=https%3A%2F%2Fex.com%2F".toList) :=
  ⟨by decide, by decide, by decide⟩

/-- C3 (amended): only the JS engine is idempotent on already-proxified
references: proxifyIf and the generic sweep of rewriteJS leave any
reference that starts with the proxy origin unchanged. -/
theorem js_engine_skips_already_proxified (o b u : Str) (q : Char)
    (h : startsWithL u o = true) :
    proxifyIf o b u = u ∧ jsGenericReplace o b q u = [q] ++ u ++ [q] := by
  constructor
  · cases hR : isRewriteableResource u with
    | false => simp [proxifyIf, hR]
    | true => simp [proxifyIf, hR, h]
  · simp [jsGenericReplace, h]

/-- C3 (witness): the amended theorem instantiated at an
already-proxified URL. -/
theorem js_engine_skips_already_proxified_witness :
    proxifyIf ("https://proxy.test".toList) ("https://ex.com/".toList)
        ("https://proxy.test?url=https%3A%2F%2Fex.com%2F".toList)
      = ("https://proxy.test?url=https%3A%2F%2Fex.com%2F".toList) ∧
    jsGenericReplace ("https://proxy.test".toList) ("https://ex.com/".toList) (Char.ofNat 39)
        ("https://proxy.test?url=https%3A%2F%2Fex.com%2F".toList)
      = [Char.ofNat 39] ++ ("https://proxy.test?url=https%3A%2F%2Fex.com%2F".toList)
          ++ [Char.ofNat 39] :=
  js_engine_skips_already_proxified ("https://proxy.test".toList) ("https://ex.com/".toList)
    ("https://proxy.test?url=https%3A%2F%2Fex.com%2F".toList) (Char.ofNat 39) (by decide)

/-! ## Claim C4: fail-open resolution -/

/-- C4 (counterexample): a reference that fails URL resolution (an http
URL with an empty host) is nevertheless wrapped in the proxy-addressed
form by the attribute handler of worker.js: resolveUrl fails open and
returns the raw string, but attrProxy then proxifies that raw string
instead of leaving the attribute unchanged. -/
theorem unresolvable_ref_wrapped_counterexample :
    newURL ("http://".toList) (some ("https://ex.com/".toList)) = none ∧
    attrProxy ("https://proxy.test".toList) ("https://ex.com/".toList) ("http://".toList)
      = proxify ("https://proxy.test".toList) ("http://".toList) ∧
    attrProxy ("https://proxy.test".toList) ("https://ex.com/".toList) ("http://".toList)
      ≠ ("http://".toList) :=
  ⟨by decide, by decide, by decide⟩

/-- C4 (amended): on resolution failure resolveUrl of worker.js returns
the original reference unchanged and raises no error, and proxify of
part_000 (which wraps resolution and encoding together) returns the
original reference unchanged; the attribute handlers of worker.js
nevertheless wrap the unresolved reference, as the counterexample
shows. -/
theorem resolve_failure_fail_open (raw base : Str)
    (h : newURL raw (some base) = none) :
    resolveUrl raw base = raw ∧ part000Proxify raw base = raw := by
  constructor
  · unfold resolveUrl
    split
    · rfl
    · rw [h]
  · unfold part000Proxify
    rw [h]

/-- C4 (witness): the amended theorem instantiated at an unresolvable
reference. -/
theorem resolve_failure_fail_open_witness :
    resolveUrl ("http://".toList) ("https://ex.com/".toList) = ("http://".toList) ∧
    part000Proxify ("http://".toList) ("https://ex.com/".toList) = ("http://".toList) :=
  resolve_failure_fail_open ("http://".toList) ("https://ex.com/".toList) (by decide)

/-! ## Claim C5: size ceiling -/

/-- C5 (counterexample): the CSS branch of the worker.js fetch handler
ignores the configured ceiling: with a ceiling of four bytes, a seven
byte stylesheet is still rewritten rather than passed through
byte-identically (the maxBytes constant read on line 555 is never
used). -/
theorem oversized_css_rewritten_counterexample :
    4 < ("url(/a)".toList).length ∧
    cssBranchBody ("url(/a)".toList) ("https://ex.com/".toList) ("https://proxy.test".toList) 4
      ≠ ("url(/a)".toList) :=
  ⟨by decide, by decide⟩

/-- C5 (amended): only the JS branch honors the ceiling: an oversized
content-length makes the branch return the upstream body unchanged,
and rewriteJS returns oversized text unchanged through its own length
guard.  The CSS branch applies no ceiling, as the counterexample
shows. -/
theorem oversized_js_passthrough (hs : Headers) (body b o : Str) (mB : Nat)
    (h1 : isTooLarge hs mB = true) (h2 : mB < body.length) :
    jsBranchBody hs body b o mB = body ∧ rewriteJS body b o mB = body := by
  have hr : rewriteJS body b o mB = body := by
    simp [rewriteJS, h2]
  exact ⟨by simp [jsBranchBody, h1], hr⟩

/-- C5 (witness): the amended theorem instantiated at a seven byte
script with a four byte ceiling and an oversized content-length
header. -/
theorem oversized_js_passthrough_witness :
    jsBranchBody [("content-length".toList, "9999".toList)] ("url(/a)".toList)
        ("https://ex.com/".toList) ("https://proxy.test".toList) 4 = ("url(/a)".toList) ∧
    rewriteJS ("url(/a)".toList) ("https://ex.com/".toList) ("https://proxy.test".toList) 4
      = ("url(/a)".toList) :=
  oversized_js_passthrough [("content-length".toList, "9999".toList)] ("url(/a)".toList)
    ("https://ex.com/".toList) ("https://proxy.test".toList) 4 (by decide) (by decide)

/-! ## Claim C6: header sanitization -/

/-- C6 (code bug): sanitizeHeaders of part_000 does strip the six
headers and add nosniff, but the HTML branch of the fetch handler
returns rewriter.transform(upstreamResp) and discards the sanitized
copy (after even setting a content type on it), so an upstream HTML
response reaches the client with its Set-Cookie header intact. -/
theorem html_branch_keeps_set_cookie :
    hGet (part000ResponseHeaders ("text/html; charset=utf-8".toList)
        [("Content-Type".toList, "text/html".toList), ("Set-Cookie".toList, "sid=1".toList)])
      ("set-cookie".toList) = some ("sid=1".toList) ∧
    hGet (sanitizeHeaders
        [("Content-Type".toList, "text/html".toList), ("Set-Cookie".toList, "sid=1".toList)])
      ("set-cookie".toList) = none ∧
    hGet (sanitizeHeaders
        [("Content-Type".toList, "text/html".toList), ("Set-Cookie".toList, "sid=1".toList)])
      ("x-content-type-options".toList) = some ("nosniff".toList) :=
  ⟨by decide, by decide, by decide⟩

/-! ## Claim C7: target resolution -/

/-- C7 (counterexample): worker.js does not default a missing scheme to
https; a scheme-less target is rejected with the invalid-target
response instead of being resolved as an https URL. -/
theorem schemeless_target_rejected_counterexample :
    workerResolveTarget (some ("example.com".toList)) = .invalid ∧
    workerResolveTarget (some ("example.com".toList)) ≠ .ok ("https://example.com/".toList) :=
  ⟨by decide, by decide⟩

/-- C7 (amended): worker.js rejects any target that does not parse as
an absolute URL (including scheme-less ones) with its invalid-target
response before any upstream call; part_000 defaults a missing scheme
to https, and a target that fails to parse even with the https prefix
makes part_000 throw into its catch-all error response, also before any
upstream call. -/
theorem target_validation_behavior (t : Str)
    (h1 : newURL t none = none)
    (h2 : newURL ("https://".toList ++ t) none = none) :
    workerResolveTarget (some t) = .invalid ∧
    part000ResolveTarget t = .error () ∧
    part000ResolveTarget ("example.com".toList) = .ok ("https://example.com/".toList) := by
  refine ⟨?_, ?_, rfl⟩
  · simp [workerResolveTarget, h1]
  · have h2b := h2
    simp only [String.toList, List.cons_append, List.nil_append] at h2b
    simp [part000ResolveTarget, h1, h2, h2b]

/-- C7 (witness): the amended theorem instantiated at a target with a
space, unparsable both bare and with the https prefix. -/
theorem target_validation_behavior_witness :
    workerResolveTarget (some ("a b".toList)) = .invalid ∧
    part000ResolveTarget ("a b".toList) = .error () ∧
    part000ResolveTarget ("example.com".toList) = .ok ("https://example.com/".toList) :=
  target_validation_behavior ("a b".toList) (by decide) (by decide)

/-! ## Claim C9: redirect interception -/

/-- C9 (counterexample): an upstream 300 response with a Location
header makes Response.redirect throw instead of returning a redirect
with the upstream status, and an upstream 3xx response without a
Location header does not pass through unmodified: the normal pipeline
adds CORS and proxy headers that the upstream response did not have. -/
theorem redirect_intercept_counterexample :
    redirectIntercept ("https://proxy.test".toList) ("https://ex.com/x".toList) 300
        (some ("/a".toList)) = .thrown ∧
    hGet (workerOutHeaders ("ex.com".toList) [("Content-Type".toList, "text/plain".toList)])
        ("access-control-allow-origin".toList) = some [Char.ofNat 42] ∧
    hGet [("Content-Type".toList, "text/plain".toList)]
      ("access-control-allow-origin".toList) = none :=
  ⟨by decide, by decide, by decide⟩

/-- C9 (amended): for an upstream status among 301, 302, 303, 307 and
308 with a Location header, the interceptor returns a redirect carrying
the upstream status whose location is the Location value resolved
against the target and proxified; for the remaining 3xx statuses with a
Location header Response.redirect throws; without a Location header the
response falls through to normal processing (which preserves status and
body but reworks headers). -/
theorem redirect_intercept_behavior (o t loc : Str) (st : Nat)
    (h : isRedirectStatus st = true) :
    redirectIntercept o t st (some loc) = .redirect (proxify o (resolveUrl loc t)) st ∧
    redirectIntercept o t st none = .fallthrough := by
  have h300 : 300 ≤ st ∧ st < 400 := by
    simp [isRedirectStatus] at h
    omega
  constructor
  · simp [redirectIntercept, h300, h]
  · simp [redirectIntercept, h300]

/-- C9 (witness): the amended theorem instantiated at a 302 redirect to
a relative location. -/
theorem redirect_intercept_behavior_witness :
    redirectIntercept ("https://proxy.test".toList) ("https://ex.com/x".toList) 302
        (some ("/new".toList))
      = .redirect (proxify ("https://proxy.test".toList)
          (resolveUrl ("/new".toList) ("https://ex.com/x".toList))) 302 ∧
    redirectIntercept ("https://proxy.test".toList) ("https://ex.com/x".toList) 302 none
      = .fallthrough :=
  redirect_intercept_behavior ("https://proxy.test".toList) ("https://ex.com/x".toList)
    ("/new".toList) 302 (by decide)

/-! ## Rate limiter lemmas -/

theorem digitChar_toNat (m : Nat) (h : m < 10) : (Char.ofNat (48 + m)).toNat = 48 + m := by
  interval_cases m <;> decide

theorem natDecimal_ne_nil (n : Nat) : natDecimal n ≠ [] := by
  rw [natDecimal]
  by_cases h : n < 10
  · rw [dif_pos h]
    simp
  · rw [dif_neg h]
    simp

theorem natDecimal_digits (n : Nat) : ∀ c ∈ natDecimal n, 48 ≤ c.toNat ∧ c.toNat ≤ 57 := by
  induction n using Nat.strong_induction_on with
  | _ n ih =>
    rw [natDecimal]
    split
    case isTrue h =>
      intro c hc
      simp only [List.mem_singleton] at hc
      subst hc
      rw [digitChar_toNat n h]
      omega
    case isFalse h =>
      intro c hc
      rcases List.mem_append.mp hc with h1 | h2
      · exact ih (n / 10) (Nat.div_lt_self (by omega) (by omega)) c h1
      · simp only [List.mem_singleton] at h2
        subst h2
        rw [digitChar_toNat (n % 10) (Nat.mod_lt n (by omega))]
        omega

theorem decVal_natDecimal (n : Nat) :
    (natDecimal n).foldl (fun a c => 10 * a + ((c.toNat : Int) - 48)) 0 = (n : Int) := by
  induction n using Nat.strong_induction_on with
  | _ n ih =>
    rw [natDecimal]
    split
    case isTrue h =>
      simp only [List.foldl_cons, List.foldl_nil]
      rw [digitChar_toNat n h]
      push_cast
      ring
    case isFalse h =>
      rw [List.foldl_append]
      rw [ih (n / 10) (Nat.div_lt_self (by omega) (by omega))]
      simp only [List.foldl_cons, List.foldl_nil]
      rw [digitChar_toNat (n % 10) (Nat.mod_lt n (by omega))]
      push_cast
      omega

theorem natDecimal_inj {a b : Nat} (h : natDecimal a = natDecimal b) : a = b := by
  have ha := decVal_natDecimal a
  rw [h, decVal_natDecimal b] at ha
  exact_mod_cast ha.symm

theorem takeWhile_eq_self_of_all (p : Char → Bool) :
    ∀ l : Str, (∀ c ∈ l, p c = true) → l.takeWhile p = l
  | [], _ => rfl
  | c :: rest, h => by
    have hc : p c = true := h c (List.mem_cons_self c rest)
    simp only [List.takeWhile_cons, hc, if_true]
    rw [takeWhile_eq_self_of_all p rest (fun d hd => h d (List.mem_cons_of_mem c hd))]

theorem parseIntJS_all_digits (s : Str) (hne : s ≠ [])
    (hd : ∀ c ∈ s, 48 ≤ c.toNat ∧ c.toNat ≤ 57) :
    parseIntJS s = some (s.foldl (fun a c => 10 * a + ((c.toNat : Int) - 48)) 0) := by
  obtain ⟨c, rest, rfl⟩ := List.exists_cons_of_ne_nil hne
  have hc := hd c (List.mem_cons_self c rest)
  have hcs : isJsSpace c = false := by
    simp only [isJsSpace]
    simp only [Bool.or_eq_false_iff, beq_eq_false_iff_ne]
    omega
  have h45 : (c.toNat == 45) = false := by
    simp only [beq_eq_false_iff_ne]
    omega
  have h43 : (c.toNat == 43) = false := by
    simp only [beq_eq_false_iff_ne]
    omega
  have hhex : startsWithCI (c :: rest) ("0x".toList) = false := by
    cases rest with
    | nil => simp [startsWithCI]
    | cons c2 r2 =>
      have hc2 := hd c2 (List.mem_cons_of_mem c (List.mem_cons_self c2 r2))
      have hl : lowerChar c2 = c2 := by
        unfold lowerChar
        rw [if_neg]
        omega
      have hx : (c2 == 'x') = false := by
        refine beq_eq_false_iff_ne.mpr fun he => ?_
        rw [he] at hc2
        exact absurd hc2.2 (by decide)
      show (lowerChar c == '0' && (lowerChar c2 == 'x' && startsWithCI r2 [])) = false
      rw [hl, hx]
      simp
  have hdig : ∀ d ∈ c :: rest, isDigitChar d = true := by
    intro d hdm
    have := hd d hdm
    simp only [isDigitChar, Bool.and_eq_true, decide_eq_true_eq]
    omega
  have hdw : (c :: rest).dropWhile isJsSpace = c :: rest := by
    simp [List.dropWhile_cons, hcs]
  unfold parseIntJS
  rw [hdw]
  simp only [h45, h43, Bool.false_eq_true, if_false, hhex]
  rw [takeWhile_eq_self_of_all isDigitChar (c :: rest) hdig]
  simp

theorem parseIntJS_natDecimal (n : Nat) : parseIntJS (natDecimal n) = some (n : Int) := by
  rw [parseIntJS_all_digits (natDecimal n) (natDecimal_ne_nil n) (natDecimal_digits n)]
  rw [decVal_natDecimal]

theorem rlKey_inj {a : Str} {m1 m2 : Nat} (h : rlKey a m1 = rlKey a m2) : m1 = m2 := by
  unfold rlKey at h
  have h2 := List.append_cancel_left h
  exact natDecimal_inj (List.cons_injective.eq_iff.mp h2)

theorem jsIntToString_natCast (c : Nat) : jsIntToString ((c : Nat) : Int) = natDecimal c := by
  unfold jsIntToString
  rw [if_neg (by omega)]
  simp

theorem checkRL_entry (a : Str) (m N c : Nat) :
    checkRateLimit [(rlKey a m, natDecimal c)] a m N =
      if N ≤ c then (false, [(rlKey a m, natDecimal c)])
      else (true, [(rlKey a m, natDecimal (c + 1))]) := by
  have hget : kvGet [(rlKey a m, natDecimal c)] (rlKey a m) = some (natDecimal c) := by
    simp [kvGet]
  simp only [checkRateLimit, hget, parseIntJS_natDecimal, Option.getD_some]
  by_cases hc : N ≤ c
  · rw [if_pos (by exact_mod_cast hc), if_pos hc]
  · rw [if_neg (by exact_mod_cast hc), if_neg hc]
    have : ((c : Int) + 1) = (((c + 1 : Nat)) : Int) := by push_cast; ring
    rw [this, jsIntToString_natCast]
    simp [kvPut]

theorem checkRL_fresh (kv : KVStore) (a : Str) (m N : Nat)
    (hget : kvGet kv (rlKey a m) = none) (hN : 1 ≤ N) :
    checkRateLimit kv a m N = (true, kvPut kv (rlKey a m) (natDecimal 1)) := by
  simp only [checkRateLimit, hget]
  rw [if_neg (by exact_mod_cast Nat.not_le.mpr (by omega : (0 : Nat) < N))]
  norm_num
  rw [show ((1 : Int)) = (((1 : Nat)) : Int) by norm_num, jsIntToString_natCast]

theorem runRequests_replicate (a : Str) (N m : Nat) :
    ∀ j c : Nat, c + j ≤ N →
      runRequests [(rlKey a m, natDecimal c)] a N (List.replicate j m) =
        ([(rlKey a m, natDecimal (c + j))], List.replicate j true) := by
  intro j
  induction j with
  | zero => intro c h; simp [runRequests]
  | succ j ih =>
    intro c h
    rw [List.replicate_succ]
    simp only [runRequests]
    rw [checkRL_entry, if_neg (by omega)]
    rw [ih (c + 1) (by omega)]
    simp [show c + 1 + j = c + (j + 1) by omega, List.replicate_succ]

theorem runRequests_append (kv : KVStore) (a : Str) (N : Nat) :
    ∀ xs ys : List Nat,
      runRequests kv a N (xs ++ ys) =
        ((runRequests (runRequests kv a N xs).1 a N ys).1,
          (runRequests kv a N xs).2 ++ (runRequests (runRequests kv a N xs).1 a N ys).2) := by
  intro xs
  induction xs generalizing kv with
  | nil => intro ys; simp [runRequests]
  | cons x xs ih =>
    intro ys
    simp only [List.cons_append, runRequests, List.append_eq]
    rw [ih]

/-! ## Claim C8: fixed-window rate limiting -/

/-- C8: with a ceiling of N at least one, starting from an empty
counter store, the first N requests of one identity in one minute
bucket are admitted, the request after them in the same minute is
rejected with the store unchanged by it, and a request in the next
minute bucket is admitted again; a rejected check makes the fetch
handler return its 429 response, never contacting the upstream. -/
theorem rate_limit_window_behavior (a : Str) (N m : Nat) (hN : 1 ≤ N) :
    runRequests [] a N (List.replicate N m ++ [m, m + 1]) =
      ([(rlKey a m, natDecimal N), (rlKey a (m + 1), natDecimal 1)],
        List.replicate N true ++ [false, true]) ∧
    rateLimitGate false = .rejected429 := by
  have hkeys : ((rlKey a m == rlKey a (m + 1)) : Bool) = false := by
    refine beq_eq_false_iff_ne.mpr fun he => ?_
    have := rlKey_inj he
    omega
  have h1 : runRequests [] a N (List.replicate N m) =
      ([(rlKey a m, natDecimal N)], List.replicate N true) := by
    obtain ⟨N2, rfl⟩ : ∃ N2, N = N2 + 1 := ⟨N - 1, by omega⟩
    rw [List.replicate_succ]
    simp only [runRequests]
    rw [checkRL_fresh [] a m (N2 + 1) (by simp [kvGet]) (by omega)]
    have hput : kvPut [] (rlKey a m) (natDecimal 1) = [(rlKey a m, natDecimal 1)] := by
      simp [kvPut]
    rw [hput]
    rw [runRequests_replicate a (N2 + 1) m N2 1 (by omega)]
    simp [show 1 + N2 = N2 + 1 by omega, List.replicate_succ]
  have h2 : runRequests [(rlKey a m, natDecimal N)] a N [m, m + 1] =
      ([(rlKey a m, natDecimal N), (rlKey a (m + 1), natDecimal 1)], [false, true]) := by
    simp only [runRequests]
    rw [checkRL_entry, if_pos (le_refl N)]
    have hget2 : kvGet [(rlKey a m, natDecimal N)] (rlKey a (m + 1)) = none := by
      simp [kvGet, List.find?, hkeys]
    rw [checkRL_fresh [(rlKey a m, natDecimal N)] a (m + 1) N hget2 hN]
    simp [kvPut, List.filter, hkeys]
  refine ⟨?_, by decide⟩
  rw [runRequests_append, h1, h2]

/-- C8 (witness): the claim theorem instantiated with ceiling two and
minute bucket five. -/
theorem rate_limit_window_behavior_witness :
    runRequests [] ("key1".toList) 2 (List.replicate 2 5 ++ [5, 5 + 1]) =
      ([(rlKey ("key1".toList) 5, natDecimal 2), (rlKey ("key1".toList) (5 + 1), natDecimal 1)],
        List.replicate 2 true ++ [false, true]) ∧
    rateLimitGate false = .rejected429 :=
  rate_limit_window_behavior ("key1".toList) 2 5 (by decide)

/-! ## Claim C10: the stored counter never exceeds the ceiling -/

/-- Bound on every stored counter value of the rate limit store. -/
def countersBounded (kv : KVStore) (N : Nat) : Prop :=
  ∀ p ∈ kv, ∃ c : Nat, parseIntJS p.2 = some ((c : Nat) : Int) ∧ c ≤ N

/-- C10: checkRateLimit increments only when the current count is
strictly below the ceiling, so every counter it stores stays at or
below the ceiling, and a rejected request leaves the store unchanged
(it consumes no quota). -/
theorem rate_counter_bounded_and_reject_free (kv : KVStore) (a : Str) (m N : Nat)
    (h : countersBounded kv N) :
    countersBounded (checkRateLimit kv a m N).2 N ∧
    ((checkRateLimit kv a m N).1 = false → (checkRateLimit kv a m N).2 = kv) := by
  unfold checkRateLimit
  cases hget : kvGet kv (rlKey a m) with
  | none =>
    by_cases h0 : (N : Int) ≤ 0
    · simp only [hget, h0, if_pos]
      exact ⟨h, by simp⟩
    · simp only [hget, if_neg h0]
      refine ⟨?_, by simp⟩
      intro p hp
      rcases List.mem_append.mp hp with hmem | hnew
      · exact h p (List.mem_of_mem_filter hmem)
      · simp only [List.mem_singleton] at hnew
        subst hnew
        refine ⟨1, ?_, by omega⟩
        rw [show ((0 : Int) + 1) = (((1 : Nat)) : Int) by norm_num, jsIntToString_natCast,
          parseIntJS_natDecimal]
  | some raw =>
    obtain ⟨e, hfind, hraw⟩ : ∃ e, kv.find? (fun x => x.1 == rlKey a m) = some e ∧ e.2 = raw := by
      unfold kvGet at hget
      rcases Option.map_eq_some'.mp hget with ⟨e, he1, he2⟩
      exact ⟨e, he1, he2⟩
    have hemem : e ∈ kv := List.mem_of_find?_eq_some hfind
    obtain ⟨c, hparse, hcN⟩ := h e hemem
    rw [hraw] at hparse
    by_cases hc : (N : Int) ≤ (c : Int)
    · simp only [hget, hparse, Option.getD_some, if_pos hc]
      exact ⟨h, by simp⟩
    · simp only [hget, hparse, Option.getD_some, if_neg hc]
      refine ⟨?_, by simp⟩
      intro p hp
      rcases List.mem_append.mp hp with hmem | hnew
      · exact h p (List.mem_of_mem_filter hmem)
      · simp only [List.mem_singleton] at hnew
        subst hnew
        refine ⟨c + 1, ?_, by omega⟩
        rw [show ((c : Int) + 1) = (((c + 1 : Nat)) : Int) by push_cast; ring,
          jsIntToString_natCast, parseIntJS_natDecimal]

/-- C10 (witness): the claim theorem instantiated at the empty store
with ceiling three. -/
theorem rate_counter_bounded_and_reject_free_witness :
    countersBounded (checkRateLimit [] ("key1".toList) 5 3).2 3 ∧
    ((checkRateLimit [] ("key1".toList) 5 3).1 = false →
      (checkRateLimit [] ("key1".toList) 5 3).2 = []) :=
  rate_counter_bounded_and_reject_free [] ("key1".toList) 5 3
    (fun p hp => absurd hp (List.not_mem_nil p))

/-! ## Percent-encoding round trip lemmas -/

theorem char_toNat_lt (c : Char) : c.toNat < 1114112 := by
  have h := c.valid
  simp only [UInt32.isValidChar, Nat.isValidChar] at h
  simp only [Char.toNat]
  rcases h with h | h <;> omega

theorem utf8Bytes_lt (n : Nat) (hn : n < 1114112) : ∀ b ∈ utf8Bytes n, b < 256 := by
  intro b hb
  unfold utf8Bytes at hb
  split at hb
  · simp only [List.mem_singleton] at hb
    omega
  · split at hb
    · simp only [List.mem_cons, List.mem_singleton, List.not_mem_nil, or_false] at hb
      rcases hb with h | h <;> omega
    · split at hb
      · simp only [List.mem_cons, List.mem_singleton, List.not_mem_nil, or_false] at hb
        rcases hb with h | h | h <;> omega
      · simp only [List.mem_cons, List.mem_singleton, List.not_mem_nil, or_false] at hb
        rcases hb with h | h | h | h <;> omega

theorem hexDigit_unreserved (m : Nat) (h : m < 16) : isUriUnreserved (hexDigit m) = true := by
  interval_cases m <;> decide

theorem hexVal_hexDigit (m : Nat) (h : m < 16) : hexVal (hexDigit m) = some m := by
  interval_cases m <;> decide

theorem mem_encodeURIComponent : ∀ (s : Str) (c : Char), c ∈ encodeURIComponent s →
    isUriUnreserved c = true ∨ c = Char.ofNat 37
  | [], c, h => absurd h (List.not_mem_nil c)
  | a :: rest, c, h => by
    rw [encodeURIComponent] at h
    rcases List.mem_append.mp h with h1 | h2
    · by_cases ha : isUriUnreserved a = true
      · rw [if_pos ha] at h1
        simp only [List.mem_singleton] at h1
        subst h1
        exact Or.inl ha
      · rw [if_neg ha] at h1
        rcases List.mem_flatMap.mp h1 with ⟨b, hb, hcb⟩
        have hb256 : b < 256 := utf8Bytes_lt a.toNat (char_toNat_lt a) b hb
        unfold pctEncodeByte at hcb
        simp only [List.mem_cons, List.not_mem_nil, or_false] at hcb
        rcases hcb with h37 | hx | hx
        · exact Or.inr h37
        · subst hx
          exact Or.inl (hexDigit_unreserved (b / 16) (by omega))
        · subst hx
          exact Or.inl (hexDigit_unreserved (b % 16) (by omega))
    · exact mem_encodeURIComponent rest c h2

theorem enc_toNat_ne (s : Str) : ∀ c ∈ encodeURIComponent s,
    c.toNat ≠ 35 ∧ c.toNat ≠ 38 ∧ c.toNat ≠ 61 ∧ c.toNat ≠ 63 := by
  intro c hc
  rcases mem_encodeURIComponent s c hc with h | h
  · simp only [isUriUnreserved, Bool.or_eq_true, Bool.and_eq_true, decide_eq_true_eq,
      beq_iff_eq] at h
    omega
  · subst h
    decide

theorem splitAtFirst_of_not_mem (t : Char) : ∀ s : Str, t ∉ s → splitAtFirst t s = (s, none)
  | [], _ => rfl
  | c :: rest, h => by
    have hct : (c == t) = false :=
      beq_eq_false_iff_ne.mpr fun he => h (he ▸ List.mem_cons_self c rest)
    have hrest : t ∉ rest := fun hm => h (List.mem_cons_of_mem c hm)
    simp only [splitAtFirst, hct, Bool.false_eq_true, if_false,
      splitAtFirst_of_not_mem t rest hrest]

theorem splitAtFirst_append (t : Char) : ∀ (a b : Str), t ∉ a →
    splitAtFirst t (a ++ t :: b) = (a, some b)
  | [], b, _ => by simp [splitAtFirst]
  | c :: a2, b, h => by
    have hct : (c == t) = false :=
      beq_eq_false_iff_ne.mpr fun he => h (he ▸ List.mem_cons_self c a2)
    have ha2 : t ∉ a2 := fun hm => h (List.mem_cons_of_mem c hm)
    show splitAtFirst t ((c :: a2) ++ t :: b) = (c :: a2, some b)
    rw [List.cons_append]
    simp only [splitAtFirst, hct, Bool.false_eq_true, if_false]
    rw [splitAtFirst_append t a2 b ha2]

theorem splitOnCharAux_of_not_mem (t : Char) : ∀ (s acc : Str), t ∉ s →
    splitOnCharAux t s acc = [acc.reverse ++ s]
  | [], acc, _ => by simp [splitOnCharAux]
  | c :: rest, acc, h => by
    have hct : (c == t) = false :=
      beq_eq_false_iff_ne.mpr fun he => h (he ▸ List.mem_cons_self c rest)
    have hrest : t ∉ rest := fun hm => h (List.mem_cons_of_mem c hm)
    simp only [splitOnCharAux, hct, Bool.false_eq_true, if_false,
      splitOnCharAux_of_not_mem t rest (c :: acc) hrest]
    simp

theorem splitOnChar_of_not_mem (t : Char) (s : Str) (h : t ∉ s) : splitOnChar t s = [s] := by
  unfold splitOnChar
  rw [splitOnCharAux_of_not_mem t s [] h]
  rfl

theorem formUrlDecode_cons_plain (c : Char) (t : Str)
    (h43 : c.toNat ≠ 43) (h37 : c.toNat ≠ 37) :
    formUrlDecode (c :: t) = c :: formUrlDecode t := by
  have b43 : (c.toNat == 43) = false := beq_eq_false_iff_ne.mpr h43
  have b37 : (c.toNat == 37) = false := beq_eq_false_iff_ne.mpr h37
  rcases t with _ | ⟨a, _ | ⟨b, t2⟩⟩
  · simp [formUrlDecode, b43]
  · simp [formUrlDecode, b43]
  · simp [formUrlDecode, b43, b37]

theorem formUrlDecode_pct (b : Nat) (hb : b < 128) (t : Str) :
    formUrlDecode (pctEncodeByte b ++ t) = Char.ofNat b :: formUrlDecode t := by
  have h1 : ((Char.ofNat 37).toNat == 43) = false := by decide
  have h2 : ((Char.ofNat 37).toNat == 37) = true := by decide
  unfold pctEncodeByte
  simp only [List.cons_append, List.nil_append]
  simp [formUrlDecode, h1, h2, hexVal_hexDigit (b / 16) (by omega),
    hexVal_hexDigit (b % 16) (by omega), Nat.div_add_mod]

theorem formUrlDecode_encodeURIComponent : ∀ s : Str, (∀ c ∈ s, c.toNat < 128) →
    formUrlDecode (encodeURIComponent s) = s
  | [], _ => rfl
  | a :: rest, h => by
    have ha128 : a.toNat < 128 := h a (List.mem_cons_self a rest)
    have hrest : ∀ c ∈ rest, c.toNat < 128 := fun c hc => h c (List.mem_cons_of_mem a hc)
    rw [encodeURIComponent]
    by_cases hu : isUriUnreserved a = true
    · rw [if_pos hu]
      have hprops : a.toNat ≠ 43 ∧ a.toNat ≠ 37 := by
        simp only [isUriUnreserved, Bool.or_eq_true, Bool.and_eq_true, decide_eq_true_eq,
          beq_iff_eq] at hu
        omega
      rw [List.singleton_append, formUrlDecode_cons_plain a _ hprops.1 hprops.2,
        formUrlDecode_encodeURIComponent rest hrest]
    · rw [if_neg hu]
      have hone : utf8Bytes a.toNat = [a.toNat] := by
        unfold utf8Bytes
        rw [if_pos ha128]
      rw [hone]
      have hflat : [a.toNat].flatMap pctEncodeByte = pctEncodeByte a.toNat := by simp
      rw [hflat, formUrlDecode_pct a.toNat ha128, Char.ofNat_toNat,
        formUrlDecode_encodeURIComponent rest hrest]

theorem searchParamsGet_url (target : Str) (ha : ∀ c ∈ target, c.toNat < 128) :
    searchParamsGet ("url".toList) ("url=".toList ++ encodeURIComponent target)
      = some target := by
  have hamp : Char.ofNat 38 ∉ ("url=".toList ++ encodeURIComponent target) := by
    intro hm
    rcases List.mem_append.mp hm with h1 | h2
    · exact absurd h1 (by decide)
    · exact (enc_toNat_ne target _ h2).2.1 (by decide)
  unfold searchParamsGet
  rw [splitOnChar_of_not_mem _ _ hamp]
  have hshape : "url=".toList ++ encodeURIComponent target
      = "url".toList ++ Char.ofNat 61 :: encodeURIComponent target := rfl
  have hsplit : splitAtFirst (Char.ofNat 61) ("url=".toList ++ encodeURIComponent target)
      = ("url".toList, some (encodeURIComponent target)) := by
    rw [hshape]
    exact splitAtFirst_append (Char.ofNat 61) ("url".toList) _ (by decide)
  simp only [List.findSome?_cons, hsplit]
  have hkey : formUrlDecode ("url".toList) = "url".toList := by decide
  simp only [Option.getD_some, hkey, beq_self_eq_true, if_true,
    formUrlDecode_encodeURIComponent target ha, List.findSome?_nil]

/-! ## Claim C1: round trip -/

/-- C1: proxify embeds the absolute target URL as the percent-encoded
url query parameter on the proxy origin, and extracting that parameter
back (as the worker fetch handler does with searchParams.get) recovers
the original URL exactly, for every ASCII target (the URL serializer
only produces ASCII) and every proxy origin free of question mark and
hash characters (true of every origin). -/
theorem proxify_roundtrip_recovers_target (origin target : Str)
    (hq : Char.ofNat 63 ∉ origin) (hh : Char.ofNat 35 ∉ origin)
    (ha : ∀ c ∈ target, c.toNat < 128) :
    getUrlParam (proxify origin target) = some target := by
  unfold proxify getUrlParam
  have hnohash : Char.ofNat 35 ∉ origin ++ "?url=".toList ++ encodeURIComponent target := by
    intro hm
    rcases List.mem_append.mp hm with h1 | h2
    · rcases List.mem_append.mp h1 with h3 | h4
      · exact hh h3
      · exact absurd h4 (by decide)
    · exact (enc_toNat_ne target _ h2).1 (by decide)
  rw [splitAtFirst_of_not_mem _ _ hnohash]
  have hshape : origin ++ "?url=".toList ++ encodeURIComponent target
      = origin ++ Char.ofNat 63 :: ("url=".toList ++ encodeURIComponent target) := by
    rw [List.append_assoc]
    rfl
  rw [hshape, splitAtFirst_append _ _ _ hq]
  exact searchParamsGet_url target ha

/-- C1 (witness): the round trip evaluated at a concrete absolute URL
containing characters that need escaping. -/
theorem proxify_roundtrip_recovers_target_witness :
    getUrlParam (proxify ("https://proxy.test".toList) ("https://ex.com/a?b=c&d e+f".toList))
      = some ("https://ex.com/a?b=c&d e+f".toList) :=
  proxify_roundtrip_recovers_target ("https://proxy.test".toList)
    ("https://ex.com/a?b=c&d e+f".toList) (by decide) (by decide) (by decide)

end EdgeProxy
